import Mathlib

/-! Verification of the script-to-speech core: a shallow embedding of
`audio_processor_module.py` (waveform concatenation with crossfade) and
`script_parser_module.py` (speaker detection, voice assignment, character
analytics), with theorems checking the specification's claims against the
embedded code.  Strings are embedded as `List Char`, waveform samples as
exact rationals. -/

namespace Imp

/-- A Python string, as its list of characters. -/
abbrev Line := List Char

/-- Character list of a string literal. -/
def str (s : String) : Line := s.data

/-- ASCII whitespace as recognised by Python's `str.strip` / `str.split`
and by the regex class `\s`: space, tab, newline, VT, FF, CR. -/
def pyWhitespace (c : Char) : Bool :=
  c == Char.ofNat 32 || c == Char.ofNat 9 || c == Char.ofNat 10 ||
  c == Char.ofNat 11 || c == Char.ofNat 12 || c == Char.ofNat 13

/-- Python `s.strip()` (the inputs involved are ASCII). -/
def pstrip (l : Line) : Line :=
  ((l.dropWhile pyWhitespace).reverse.dropWhile pyWhitespace).reverse

/-- Python `s.upper()` (ASCII range). -/
def upperL (l : Line) : Line := l.map Char.toUpper

/-- Python `s.lower()` (ASCII range). -/
def lowerL (l : Line) : Line := l.map Char.toLower

/-- Python `script_text.split('\n')`. -/
def splitLines : Line → List Line
  | [] => [[]]
  | c :: rest =>
    match splitLines rest with
    | [] => [[c]]
    | l :: ls => if c = Char.ofNat 10 then [] :: l :: ls else (c :: l) :: ls

/-- First whitespace-delimited token, Python `s.split()[0]`.  The Python
code indexes the split result unconditionally; every speaker name that
reaches it starts with an uppercase letter, so the token exists.  In the
vacuous all-whitespace case we return `[]` where Python would raise. -/
def firstWord (l : Line) : Line :=
  (l.dropWhile pyWhitespace).takeWhile (fun c => !(pyWhitespace c))

/-- Python's substring test `needle in hay`. -/
def containsSub (needle hay : Line) : Bool :=
  hay.tails.any (fun t => needle.isPrefixOf t)

/-- Python `' '.join(parts)`. -/
def joinSpace : List Line → Line
  | [] => []
  | [t] => t
  | t :: ts => t ++ Char.ofNat 32 :: joinSpace ts

/-! ## audio_processor_module.py -/

/-- `np.linspace(a, b, n)`: `n` evenly spaced samples from `a` to `b`
inclusive; sample `i` is `a + (b - a) * i / (n - 1)` (exact in `ℚ`;
for `n = 1` numpy returns `[a]`, matched here because the numerator is
then `0`). -/
def linspace (a b : ℚ) (n : ℕ) : List ℚ :=
  (List.range n).map (fun i : ℕ => a + (b - a) * (i : ℚ) / ((n : ℚ) - 1))


/-- Line 42, `int(self.sample_rate * crossfade_duration_ms / 1000)`:
Python `int()` truncates the nonnegative quotient, i.e. floor division. -/
def crossfade_samples (sample_rate crossfade_duration_ms : ℕ) : ℕ :=
  sample_rate * crossfade_duration_ms / 1000

/-- One iteration of the concatenation loop (lines 46-75): merge `current`
into the running `result` with an `n`-sample linear crossfade when both
sides are long enough, otherwise append. -/
def crossfadeStep (n : ℕ) (result current : List ℚ) : List ℚ :=
  if 0 < n ∧ n ≤ result.length then
    if n ≤ current.length then
      let fade_out := linspace 1 0 n
      let fade_in := linspace 0 1 n
      let tailMix := List.zipWith (fun x y => x * y) (result.drop (result.length - n)) fade_out
      let headMix := List.zipWith (fun x y => x * y) (current.take n) fade_in
      let crossfaded := List.zipWith (fun x y => x + y) tailMix headMix
      result.take (result.length - n) ++ crossfaded ++ current.drop n
    else
      result ++ current
  else
    result ++ current

/-- `concatenate_with_crossfade` (lines 20-79): an empty list raises
`ValueError` (the spec's `EmptyInputError`), a single segment is returned
unchanged, otherwise the remaining segments are folded into the first. -/
def concatenate_with_crossfade (sample_rate : ℕ) (audio_segments : List (List ℚ))
    (crossfade_duration_ms : ℕ) : Except String (List ℚ) :=
  match audio_segments with
  | [] => Except.error "No audio segments to concatenate"
  | seg :: rest =>
    if rest.isEmpty then Except.ok seg
    else Except.ok
      (rest.foldl (crossfadeStep (crossfade_samples sample_rate crossfade_duration_ms)) seg)

/-! ## script_parser_module.py -/

/-- Uppercase ASCII letter: the regex class `[A-Z]`. -/
def isUpperAlpha (c : Char) : Bool :=
  decide (65 ≤ c.toNat ∧ c.toNat ≤ 90)

/-- The regex class `[A-Z\s\'\-\.]` used inside speaker tokens after the
first letter: uppercase letters, whitespace, apostrophe (code 39), hyphen,
period. -/
def speakerClass (c : Char) : Bool :=
  isUpperAlpha c || pyWhitespace c || c == Char.ofNat 39 || c == '-' || c == '.'

/-- The scene-direction keyword blacklist (lines 50-54). -/
def scene_keywords : List Line :=
  [str "INT", str "EXT", str "FADE IN", str "FADE OUT", str "CUT TO",
   str "DISSOLVE TO", str "CONTINUED", str "SCENE", str "LOCATION",
   str "NIGHT", str "DAY", str "MORNING", str "EVENING", str "LATER",
   str "MEANWHILE", str "FLASHBACK", str "MONTAGE"]

/-- Male first-name hints (lines 28-33). -/
def male_names : List Line :=
  [str "john", str "mike", str "david", str "james", str "robert", str "michael",
   str "william", str "joseph", str "thomas", str "charles", str "daniel",
   str "paul", str "mark", str "george", str "peter", str "alex", str "adam",
   str "steve", str "jack", str "tom", str "bob", str "henry", str "knox",
   str "bernard", str "mclain", str "sims"]

/-- Female first-name hints (lines 35-40). -/
def female_names : List Line :=
  [str "sarah", str "mary", str "jennifer", str "linda", str "patricia",
   str "barbara", str "elizabeth", str "susan", str "jessica", str "karen",
   str "nancy", str "lisa", str "betty", str "margaret", str "sandra",
   str "ashley", str "emily", str "donna", str "bella", str "emma",
   str "sophia", str "isabella", str "shirley"]

/-- `available_voices['male']` (line 44). -/
def available_voices_male : List Line := [str "am_adam", str "am_michael"]

/-- `available_voices['female']` (line 45). -/
def available_voices_female : List Line :=
  [str "af_bella", str "af_sarah", str "af_heart", str "af_sky", str "af_nicole"]

/-- `default_voices['NARRATOR']` (line 21). -/
def default_voice_NARRATOR : Line := str "af_heart"

/-- `default_voices['DEFAULT']` (line 24). -/
def default_voice_DEFAULT : Line := str "af_heart"

/-- Regex pattern 1, `^([A-Z][A-Z\s\'\-\.]+?):\s*(.+)$` (line 134): the
lazy group over a class that excludes the colon makes the speaker the text
before the first colon (at least two characters); the dialogue is the
remainder after the colon, which must be non-empty, stripped (`\s*(.+)$`
followed by the code's `.strip()` amounts to stripping the remainder). -/
def patternColon (line : Line) : Option (Line × Line) :=
  let pre := line.takeWhile (fun c => !(c == ':'))
  let rest := line.drop (pre.length + 1)
  match pre with
  | [] => none
  | c0 :: cs =>
    if isUpperAlpha c0 && !cs.isEmpty && cs.all speakerClass && !rest.isEmpty then
      some (pstrip (c0 :: cs), pstrip rest)
    else none

/-- Regex pattern 2, `^[\[\(]([A-Z][A-Z\s\'\-\.]+?)[\]\)]\s*(.+)$`
(line 144): an opening bracket of either kind, a speaker group running to
the first closing bracket of either kind, then non-empty dialogue. -/
def patternBracket (line : Line) : Option (Line × Line) :=
  match line with
  | [] => none
  | b :: rest =>
    if b == '[' || b == '(' then
      let pre := rest.takeWhile (fun c => !(c == ']' || c == ')'))
      let after := rest.drop (pre.length + 1)
      match pre with
      | [] => none
      | c0 :: cs =>
        if isUpperAlpha c0 && !cs.isEmpty && cs.all speakerClass && !after.isEmpty then
          some (pstrip (c0 :: cs), pstrip after)
        else none
    else none

/-- Regex pattern 3, `^([A-Z][A-Z\s\'\-\.]{2,})$` (line 151): the whole
line is a speaker token of length at least 3. -/
def patternStandalone (line : Line) : Option Line :=
  match line with
  | [] => none
  | c0 :: cs =>
    if isUpperAlpha c0 && decide (2 ≤ cs.length) && cs.all speakerClass then
      some (pstrip (c0 :: cs))
    else none

/-- Regex pattern 4, `^\*\*([A-Z][A-Z\s\'\-\.]+?)\*\*\s*(.+)$` (line 158):
a double-asterisk, a speaker group running to the next asterisk (the class
excludes it), a closing double-asterisk, then non-empty dialogue. -/
def patternBold (line : Line) : Option (Line × Line) :=
  match line with
  | '*' :: '*' :: rest =>
    let pre := rest.takeWhile (fun c => !(c == '*'))
    match pre, rest.drop pre.length with
    | c0 :: cs, '*' :: '*' :: tl =>
      if isUpperAlpha c0 && !cs.isEmpty && cs.all speakerClass && !tl.isEmpty then
        some (pstrip (c0 :: cs), pstrip tl)
      else none
    | _, _ => none
  | _ => none

/-- `_detect_speaker` (lines 127-164): the four patterns tried in order;
patterns 1 and 3 reject a speaker whose uppercased form is exactly one of
the scene keywords and fall through to the later patterns. -/
def detect_speaker (line : Line) : Option (Line × Line) :=
  let r1 :=
    match patternColon line with
    | some sd => if scene_keywords.contains (upperL sd.1) then none else some sd
    | none => none
  match r1 with
  | some sd => some sd
  | none =>
    match patternBracket line with
    | some sd => some sd
    | none =>
      let r3 :=
        match patternStandalone line with
        | some sp => if scene_keywords.contains (upperL sp) then none else some (sp, [])
        | none => none
      match r3 with
      | some sd => some sd
      | none => patternBold line

/-- `_is_scene_direction` (lines 201-216): the uppercased line starts with
a scene keyword, or the whole line is parenthesized (`^\(.+\)$`). -/
def is_scene_direction (line : Line) : Bool :=
  scene_keywords.any (fun k => k.isPrefixOf (upperL line)) ||
  (match line with
   | '(' :: rest => decide (2 ≤ rest.length) && (rest.getLast? == some ')')
   | _ => false)

/-- `_get_voice_for_speaker` (lines 166-199), with the voice map as an
insertion-ordered association list (a Python dict membership test is the
exact match on keys; the fallback loop scans pairs in order). -/
def get_voice_for_speaker (speaker : Line) (voice_mappings : List (Line × Line)) : Line :=
  let speaker_upper := upperL speaker
  match voice_mappings.find? (fun p => p.1 == speaker_upper) with
  | some p => p.2
  | none =>
    match voice_mappings.find? (fun p => upperL p.1 == speaker_upper) with
    | some p => p.2
    | none =>
      let speaker_lower := firstWord (lowerL speaker)
      if male_names.contains speaker_lower then available_voices_male.getD 0 []
      else if female_names.contains speaker_lower then available_voices_female.getD 0 []
      else if containsSub (str "narr") speaker_lower || speaker_upper == str "NARRATOR" then
        default_voice_NARRATOR
      else default_voice_DEFAULT

/-- The mutable state of the `parse_script` loop. -/
structure ParseState where
  current_speaker : Option Line
  current_text : List Line
  segments : List (Line × Line)
deriving DecidableEq

/-- One iteration of the `parse_script` line loop (lines 82-115): strip
the line, skip it when blank, otherwise either open a new speaker (first
flushing a non-empty buffer), append a continuation line, or start an
implicit narrator unless the line is a scene direction. -/
def parse_line (voice_mappings : List (Line × Line)) (st : ParseState) (rawLine : Line) :
    ParseState :=
  let line := pstrip rawLine
  if line.isEmpty then st
  else
    match detect_speaker line with
    | some sd =>
      let st1 :=
        match st.current_speaker with
        | some sp =>
          if st.current_text.isEmpty then st
          else
            { st with
              current_text := [],
              segments := st.segments ++
                [(get_voice_for_speaker sp voice_mappings, joinSpace st.current_text)] }
        | none => st
      { st1 with
        current_speaker := some sd.1,
        current_text := if sd.2.isEmpty then st1.current_text else st1.current_text ++ [sd.2] }
    | none =>
      match st.current_speaker with
      | some _ => { st with current_text := st.current_text ++ [line] }
      | none =>
        if is_scene_direction line then st
        else
          { st with
            current_speaker := some (str "NARRATOR"),
            current_text := st.current_text ++ [line] }

/-- `parse_script` (lines 56-125): fold the split lines through
`parse_line`, then flush the final open buffer. -/
def parse_script (script_text : Line) (voice_mappings : List (Line × Line)) :
    List (Line × Line) :=
  let final := (splitLines script_text).foldl (parse_line voice_mappings) ⟨none, [], []⟩
  match final.current_speaker with
  | some sp =>
    if final.current_text.isEmpty then final.segments
    else final.segments ++
      [(get_voice_for_speaker sp voice_mappings, joinSpace final.current_text)]
  | none => final.segments

/-- `Counter[key] += 1` on an insertion-ordered association list. -/
def counterInc (acc : List (Line × ℕ)) (k : Line) : List (Line × ℕ) :=
  if acc.any (fun p => p.1 == k) then
    acc.map (fun p => if p.1 == k then (p.1, p.2 + 1) else p)
  else acc ++ [(k, 1)]

/-- One iteration of the `detect_characters` loop (lines 226-231): when
the raw (unstripped) line carries a speaker cue whose uppercased speaker
is not a scene keyword, bump that speaker's count. -/
def detect_line_step (acc : List (Line × ℕ)) (line : Line) : List (Line × ℕ) :=
  match detect_speaker line with
  | some sd =>
    if scene_keywords.contains (upperL sd.1) then acc
    else counterInc acc (upperL sd.1)
  | none => acc

/-- `detect_characters` (lines 218-233): count cues per uppercased speaker
over the raw lines. -/
def detect_characters (script_text : Line) : List (Line × ℕ) :=
  (splitLines script_text).foldl detect_line_step []

/-- `suggestions[key] = v` on an insertion-ordered association list. -/
def dictInsert (d : List (Line × Line)) (k v : Line) : List (Line × Line) :=
  if d.any (fun p => p.1 == k) then d.map (fun p => if p.1 == k then (p.1, v) else p)
  else d ++ [(k, v)]

/-- One iteration of the `suggest_voice_mappings` loop (lines 245-263);
the state is (suggestions, male voice index, female voice index). -/
def suggest_step (st : List (Line × Line) × ℕ × ℕ) (character : Line) :
    List (Line × Line) × ℕ × ℕ :=
  let char_lower := firstWord (lowerL character)
  if containsSub (str "narr") char_lower then
    (dictInsert st.1 character (str "af_heart"), st.2)
  else if male_names.contains char_lower then
    (dictInsert st.1 character
      (available_voices_male.getD (st.2.1 % available_voices_male.length) []),
      st.2.1 + 1, st.2.2)
  else if female_names.contains char_lower then
    (dictInsert st.1 character
      (available_voices_female.getD (st.2.2 % available_voices_female.length) []),
      st.2.1, st.2.2 + 1)
  else
    (dictInsert st.1 character
      (if st.1.length % 2 = 0 then str "am_adam" else str "af_bella"), st.2)

/-- `suggest_voice_mappings` (lines 235-267): fold the detected characters
in first-appearance order through `suggest_step`. -/
def suggest_voice_mappings (script_text : Line) : List (Line × Line) :=
  (((detect_characters script_text).map Prod.fst).foldl suggest_step ([], 0, 0)).1

/-- The corrected suggestion rule, stated structurally: walk the characters
in first-appearance order carrying the male pool index `mi`, the female
pool index `fi` and the number `pos` of speakers already assigned.  A
first-token-narr speaker gets the narrator voice; a male-named speaker
gets male pool entry `mi % 2` (then `mi` increments); a female-named
speaker gets female pool entry `fi % 5` (then `fi` increments); any other
speaker gets `am_adam` when `pos` is even and `af_bella` when `pos` is
odd — the parity of all speakers assigned so far, not an alternation among
the unrecognised speakers themselves. -/
def suggestRule (mi fi pos : ℕ) : List Line → List (Line × Line)
  | [] => []
  | c :: rest =>
    let tok := firstWord (lowerL c)
    if containsSub (str "narr") tok then
      (c, str "af_heart") :: suggestRule mi fi (pos + 1) rest
    else if male_names.contains tok then
      (c, available_voices_male.getD (mi % 2) []) :: suggestRule (mi + 1) fi (pos + 1) rest
    else if female_names.contains tok then
      (c, available_voices_female.getD (fi % 5) []) :: suggestRule mi (fi + 1) (pos + 1) rest
    else
      (c, if pos % 2 = 0 then str "am_adam" else str "af_bella") ::
        suggestRule mi fi (pos + 1) rest

/-! ## Theorems -/

theorem length_linspace (a b : ℚ) (n : ℕ) : (linspace a b n).length = n := by
  simp [linspace]

/-- **C5 counterexample.**  The claim says the crossfade window is
`round(sample_rate * crossfade_ms / 1000)` and that rate 1500 with 1 ms
gives `n = 2`.  The code truncates: it computes `1`, not `round (3/2) = 2`. -/
theorem c5_counterexample :
    ((crossfade_samples 1500 1 : ℤ) ≠ round (((1500 : ℚ) * 1) / 1000)) ∧
    crossfade_samples 1500 1 = 1 := by
  constructor
  · norm_num [crossfade_samples, round_eq]
  · rfl

/-- **C5 amended.**  On every concatenation call the crossfade window size
equals the floor (truncation), not the rounding, of
`sample_rate * crossfade_ms / 1000`. -/
theorem c5_window_is_floor (r d : ℕ) :
    crossfade_samples r d = ⌊((r : ℚ) * d) / 1000⌋₊ := by
  have h1 : ((r : ℚ) * d) = ((r * d : ℕ) : ℚ) := by push_cast; ring
  have h2 : ((1000 : ℚ)) = ((1000 : ℕ) : ℚ) := by norm_num
  rw [h1, h2, Nat.floor_div_nat, Nat.floor_natCast]
  rfl

/-- **C8.**  Concatenation fails (with the empty-input error) exactly on
the empty segment list, and on every non-empty list returns a waveform
and raises nothing. -/
theorem c8_empty_input_error (sample_rate crossfade_duration_ms : ℕ)
    (audio_segments : List (List ℚ)) :
    ((∃ e, concatenate_with_crossfade sample_rate audio_segments crossfade_duration_ms
        = Except.error e) ↔ audio_segments = []) ∧
    (audio_segments ≠ [] →
      ∃ w, concatenate_with_crossfade sample_rate audio_segments crossfade_duration_ms
        = Except.ok w) := by
  cases audio_segments with
  | nil => simp [concatenate_with_crossfade]
  | cons s rest =>
    by_cases h : rest.isEmpty <;>
      simp [concatenate_with_crossfade, h]

/-- Witness for `c8_empty_input_error`: a concrete non-empty input on
which the hypothesis of its second part is discharged. -/
theorem c8_empty_input_error_witness :
    ∃ w, concatenate_with_crossfade 24000 [[(1 : ℚ)]] 50 = Except.ok w :=
  (c8_empty_input_error 24000 50 [[(1 : ℚ)]]).2 (by simp)

/-- **C1.**  For 100-sample inputs at rate 1000 with 50 ms crossfade the
window is 50 samples, the merged waveform has 150 samples, and overlap
sample `i` equals `a[50+i]*(1 - i/49) + b[i]*(i/49)` exactly (so in
particular at the midpoint of the overlap, within any tolerance). -/
theorem c1_crossfade_overlap (a b : List ℚ) (ha : a.length = 100) (hb : b.length = 100) :
    ∃ w, concatenate_with_crossfade 1000 [a, b] 50 = Except.ok w ∧
      w.length = 150 ∧
      ∀ i : ℕ, i < 50 →
        w.getD (50 + i) 0 =
          a.getD (50 + i) 0 * (1 - (i : ℚ) / 49) + b.getD i 0 * ((i : ℚ) / 49) := by
  have hcond1 : (0 < 50 ∧ 50 ≤ a.length) := by omega
  have hcond2 : (50 ≤ b.length) := by omega
  have hstep : crossfadeStep 50 a b =
      a.take 50 ++
      List.zipWith (fun x y => x + y)
        (List.zipWith (fun x y => x * y) (a.drop 50) (linspace 1 0 50))
        (List.zipWith (fun x y => x * y) (b.take 50) (linspace 0 1 50)) ++
      b.drop 50 := by
    rw [crossfadeStep, if_pos hcond1, if_pos hcond2, ha]
  have hTlen : (a.take 50).length = 50 := by simp [ha]
  have hXlen :
      (List.zipWith (fun x y => x * y) (a.drop 50) (linspace 1 0 50)).length = 50 := by
    rw [List.length_zipWith, List.length_drop, ha, length_linspace]
    omega
  have hYlen :
      (List.zipWith (fun x y => x * y) (b.take 50) (linspace 0 1 50)).length = 50 := by
    rw [List.length_zipWith, List.length_take, hb, length_linspace]
    omega
  have hClen :
      (List.zipWith (fun x y => x + y)
        (List.zipWith (fun x y => x * y) (a.drop 50) (linspace 1 0 50))
        (List.zipWith (fun x y => x * y) (b.take 50) (linspace 0 1 50))).length = 50 := by
    rw [List.length_zipWith, hXlen, hYlen]
    omega
  refine ⟨crossfadeStep 50 a b, rfl, ?_, ?_⟩
  · rw [hstep, List.length_append, List.length_append, hTlen, hClen, List.length_drop, hb]
  · intro i hi
    have hai : a[50 + i]? = some (a.getD (50 + i) 0) := by
      rw [List.getD_eq_getElem?_getD, List.getElem?_eq_getElem (by omega)]
      simp
    have hbi : b[i]? = some (b.getD i 0) := by
      rw [List.getD_eq_getElem?_getD, List.getElem?_eq_getElem (by omega)]
      simp
    have hf1 : (linspace 1 0 50)[i]? = some (1 + (0 - 1) * (i : ℚ) / ((50 : ℚ) - 1)) := by
      rw [linspace, List.getElem?_map, List.getElem?_range hi]
      rfl
    have hf0 : (linspace 0 1 50)[i]? = some (0 + (1 - 0) * (i : ℚ) / ((50 : ℚ) - 1)) := by
      rw [linspace, List.getElem?_map, List.getElem?_range hi]
      rfl
    have hX : (List.zipWith (fun x y => x * y) (a.drop 50) (linspace 1 0 50))[i]? =
        some (a.getD (50 + i) 0 * (1 + (0 - 1) * (i : ℚ) / ((50 : ℚ) - 1))) := by
      rw [List.getElem?_zipWith, List.getElem?_drop, hai, hf1]
    have hY : (List.zipWith (fun x y => x * y) (b.take 50) (linspace 0 1 50))[i]? =
        some (b.getD i 0 * (0 + (1 - 0) * (i : ℚ) / ((50 : ℚ) - 1))) := by
      rw [List.getElem?_zipWith, List.getElem?_take_of_lt hi, hbi, hf0]
    rw [hstep, List.getD_eq_getElem?_getD, List.append_assoc,
      List.getElem?_append_right (by omega), hTlen]
    have hsub : 50 + i - 50 = i := by omega
    rw [hsub, List.getElem?_append_left (by omega), List.getElem?_zipWith, hX, hY]
    show a.getD (50 + i) 0 * (1 + (0 - 1) * (i : ℚ) / ((50 : ℚ) - 1)) +
        b.getD i 0 * (0 + (1 - 0) * (i : ℚ) / ((50 : ℚ) - 1)) =
        a.getD (50 + i) 0 * (1 - (i : ℚ) / 49) + b.getD i 0 * ((i : ℚ) / 49)
    ring

/-- Witness for `c1_crossfade_overlap` at two concrete constant
waveforms of 100 samples each. -/
theorem c1_crossfade_overlap_witness :
    ∃ w, concatenate_with_crossfade 1000 [List.replicate 100 (1 : ℚ), List.replicate 100 0] 50
        = Except.ok w ∧
      w.length = 150 ∧
      ∀ i : ℕ, i < 50 →
        w.getD (50 + i) 0 =
          (List.replicate 100 (1 : ℚ)).getD (50 + i) 0 * (1 - (i : ℚ) / 49) +
          (List.replicate 100 (0 : ℚ)).getD i 0 * ((i : ℚ) / 49) :=
  c1_crossfade_overlap (List.replicate 100 1) (List.replicate 100 0) (by simp) (by simp)

theorem char_toNat_ofNat_valid (n : ℕ) (h : Char.isValidCharNat n) :
    (Char.ofNat n).toNat = n := by
  rw [Char.ofNat, dif_pos h]
  simp only [Char.ofNatAux, Char.toNat, UInt32.ofNat']
  simp [UInt32.toNat, BitVec.toNat_ofNatLt]

theorem char_toUpper_idem (c : Char) : c.toUpper.toUpper = c.toUpper := by
  unfold Char.toUpper
  by_cases h : c.toNat ≥ 97 ∧ c.toNat ≤ 122
  · rw [if_pos h]
    have hv : Char.isValidCharNat (c.toNat - 32) := by
      left
      omega
    rw [if_neg]
    rw [char_toNat_ofNat_valid _ hv]
    omega
  · rw [if_neg h, if_neg h]

theorem upperL_idem (l : Line) : upperL (upperL l) = upperL l := by
  rw [upperL, upperL, List.map_map]
  exact List.map_congr_left (fun c _ => char_toUpper_idem c)

/-- **C2 counterexample.**  The claim says a line `"INT. KITCHEN - NIGHT"`
with no active speaker is skipped entirely and activates no speaker.  In
the code the line matches the standalone-speaker pattern (all its
characters are in the speaker class and it is not literally equal to any
scene keyword), so it becomes the active speaker; consequently a
following narration line is attributed to it rather than to `NARRATOR`,
observably: with the voice map `{NARRATOR: narr_x}` the next line is
emitted with the default voice instead of `narr_x`. -/
theorem c2_counterexample :
    (parse_line [] ⟨none, [], []⟩ (str "INT. KITCHEN - NIGHT")).current_speaker
      = some (str "INT. KITCHEN - NIGHT") ∧
    parse_script (str "INT. KITCHEN - NIGHT\nHello there")
      [(str "NARRATOR", str "narr_x")] = [(str "af_heart", str "Hello there")] := by
  constructor <;> decide

/-- **C2 amended.**  When no speaker is active, a line
`"INT. KITCHEN - NIGHT"` is not skipped: it matches the standalone-speaker
pattern (and is not literally a scene keyword), so it opens
`"INT. KITCHEN - NIGHT"` as the new active speaker with empty inline
dialogue, contributing no text and emitting no segment by itself; the
scene-direction filter is never consulted because speaker detection
succeeds first. -/
theorem c2_scene_line_opens_speaker (vm : List (Line × Line)) (ct : List Line)
    (segs : List (Line × Line)) :
    parse_line vm ⟨none, ct, segs⟩ (str "INT. KITCHEN - NIGHT") =
      ⟨some (str "INT. KITCHEN - NIGHT"), ct, segs⟩ := rfl

/-- **C3.**  If the voice map contains a key equal to the speaker name
case-insensitively, resolution returns that key's voice — it never reaches
the gender, narrator or default rules; in particular `"John"` with map
`{JOHN: x}` resolves to `x` although `john` is in the male-name set. -/
theorem c3_voice_map_priority :
    (∀ (speaker : Line) (vm : List (Line × Line)),
      (∃ p ∈ vm, upperL p.1 = upperL speaker) →
      ∃ p ∈ vm, upperL p.1 = upperL speaker ∧ get_voice_for_speaker speaker vm = p.2) ∧
    get_voice_for_speaker (str "John") [(str "JOHN", str "x")] = str "x" := by
  constructor
  · intro speaker vm h
    cases hfind : vm.find? (fun p => p.1 == upperL speaker) with
    | some q =>
      have hq := List.find?_some hfind
      have hq1 : q.1 = upperL speaker := by simpa using hq
      refine ⟨q, List.mem_of_find?_eq_some hfind, ?_, ?_⟩
      · rw [hq1, upperL_idem]
      · simp [get_voice_for_speaker, hfind]
    | none =>
      obtain ⟨p0, hp0mem, hp0⟩ := h
      cases hfind2 : vm.find? (fun p => upperL p.1 == upperL speaker) with
      | none =>
        exfalso
        have := List.find?_eq_none.mp hfind2 p0 hp0mem
        simp [hp0] at this
      | some q =>
        have hq := List.find?_some hfind2
        refine ⟨q, List.mem_of_find?_eq_some hfind2, by simpa using hq, ?_⟩
        simp [get_voice_for_speaker, hfind, hfind2]
  · decide

/-- Witness for `c3_voice_map_priority`: its general part applied to the
speaker `"John"` and the voice map `{JOHN: x}`. -/
theorem c3_voice_map_priority_witness :
    ∃ p ∈ [(str "JOHN", str "x")], upperL p.1 = upperL (str "John") ∧
      get_voice_for_speaker (str "John") [(str "JOHN", str "x")] = p.2 :=
  c3_voice_map_priority.1 (str "John") [(str "JOHN", str "x")]
    ⟨(str "JOHN", str "x"), by decide, by decide⟩

/-- **C7.**  A flushed speaker with no voice-map match (in the code's
sense: no key equal to, nor uppercasing to, the uppercased speaker) and a
first token in neither gender set resolves to the narrator voice
`af_heart` whenever the lowercased name contains `narr` or the uppercased
name is exactly `NARRATOR` — e.g. `"THE NARRATOR"`. -/
theorem c7_narrator_fallback (speaker : Line) (vm : List (Line × Line))
    (hmap : ∀ p ∈ vm, p.1 ≠ upperL speaker ∧ upperL p.1 ≠ upperL speaker)
    (hmale : firstWord (lowerL speaker) ∉ male_names)
    (hfemale : firstWord (lowerL speaker) ∉ female_names)
    (hnarr : containsSub (str "narr") (lowerL speaker) = true ∨
      upperL speaker = str "NARRATOR") :
    get_voice_for_speaker speaker vm = str "af_heart" := by
  have h1 : vm.find? (fun p => p.1 == upperL speaker) = none := by
    rw [List.find?_eq_none]
    intro p hp
    simp [(hmap p hp).1]
  have h2 : vm.find? (fun p => upperL p.1 == upperL speaker) = none := by
    rw [List.find?_eq_none]
    intro p hp
    simp [(hmap p hp).2]
  have hm : male_names.contains (firstWord (lowerL speaker)) = false := by
    simpa using hmale
  have hf : female_names.contains (firstWord (lowerL speaker)) = false := by
    simpa using hfemale
  simp only [get_voice_for_speaker, h1, h2, hm, hf, Bool.false_eq_true, if_false]
  split
  · rfl
  · rfl

/-- Witness for `c7_narrator_fallback`: the speaker `"THE NARRATOR"` with
an empty voice map resolves to `af_heart` (its lowercasing contains
`narr`, though not in the first token). -/
theorem c7_narrator_fallback_witness :
    get_voice_for_speaker (str "THE NARRATOR") [] = str "af_heart" :=
  c7_narrator_fallback (str "THE NARRATOR") [] (by simp) (by decide) (by decide)
    (by decide)

theorem joinSpace_ne_nil : ∀ (ts : List Line), ts ≠ [] → (∀ t ∈ ts, t ≠ []) →
    joinSpace ts ≠ []
  | [], h, _ => absurd rfl h
  | [t], _, h => by simpa using h t (by simp)
  | t :: t2 :: rest, _, h => by
    intro hc
    rw [show joinSpace (t :: t2 :: rest) = t ++ Char.ofNat 32 :: joinSpace (t2 :: rest)
      from rfl] at hc
    obtain ⟨h1, -⟩ := List.append_eq_nil.mp hc
    exact h t (by simp) h1

theorem parse_line_eq_blank (vm : List (Line × Line)) (st : ParseState) (l : Line)
    (hb : (pstrip l).isEmpty = true) : parse_line vm st l = st := by
  simp [parse_line, hb]

theorem parse_line_eq_cue_flush (vm : List (Line × Line)) (st : ParseState) (l : Line)
    (sd : Line × Line) (sp : Line)
    (hb : (pstrip l).isEmpty = false) (hdet : detect_speaker (pstrip l) = some sd)
    (hsp : st.current_speaker = some sp) (hct : st.current_text.isEmpty = false) :
    parse_line vm st l =
      { current_speaker := some sd.1,
        current_text := if sd.2.isEmpty then [] else [sd.2],
        segments := st.segments ++
          [(get_voice_for_speaker sp vm, joinSpace st.current_text)] } := by
  simp [parse_line, hb, hdet, hsp, hct]

theorem parse_line_eq_cue_noflush (vm : List (Line × Line)) (st : ParseState) (l : Line)
    (sd : Line × Line)
    (hb : (pstrip l).isEmpty = false) (hdet : detect_speaker (pstrip l) = some sd)
    (h : st.current_speaker = none ∨ st.current_text.isEmpty = true) :
    parse_line vm st l =
      { current_speaker := some sd.1,
        current_text := if sd.2.isEmpty then st.current_text else st.current_text ++ [sd.2],
        segments := st.segments } := by
  rcases h with h | h
  · simp [parse_line, hb, hdet, h]
  · cases hsp : st.current_speaker with
    | none => simp [parse_line, hb, hdet, hsp]
    | some sp => simp [parse_line, hb, hdet, hsp, h]

theorem parse_line_eq_cont (vm : List (Line × Line)) (st : ParseState) (l : Line) (sp : Line)
    (hb : (pstrip l).isEmpty = false) (hdet : detect_speaker (pstrip l) = none)
    (hsp : st.current_speaker = some sp) :
    parse_line vm st l = { st with current_text := st.current_text ++ [pstrip l] } := by
  simp [parse_line, hb, hdet, hsp]

theorem parse_line_eq_scene (vm : List (Line × Line)) (st : ParseState) (l : Line)
    (hb : (pstrip l).isEmpty = false) (hdet : detect_speaker (pstrip l) = none)
    (hsp : st.current_speaker = none) (hsc : is_scene_direction (pstrip l) = true) :
    parse_line vm st l = st := by
  simp [parse_line, hb, hdet, hsp, hsc]

theorem parse_line_eq_narr (vm : List (Line × Line)) (st : ParseState) (l : Line)
    (hb : (pstrip l).isEmpty = false) (hdet : detect_speaker (pstrip l) = none)
    (hsp : st.current_speaker = none) (hsc : is_scene_direction (pstrip l) = false) :
    parse_line vm st l =
      { st with current_speaker := some (str "NARRATOR"),
                current_text := st.current_text ++ [pstrip l] } := by
  simp [parse_line, hb, hdet, hsp, hsc]

/-- Where each piece of a post-step state comes from: a segment is either
an old segment or the flush of a non-empty buffer with a voice produced by
`get_voice_for_speaker`; a buffer entry is either an old entry or
non-empty. -/
theorem parse_line_cases (vm : List (Line × Line)) (st : ParseState) (l : Line) :
    (∀ q ∈ (parse_line vm st l).segments,
      q ∈ st.segments ∨
      (st.current_text ≠ [] ∧ ∃ sp,
        q = (get_voice_for_speaker sp vm, joinSpace st.current_text))) ∧
    (∀ t ∈ (parse_line vm st l).current_text, t ∈ st.current_text ∨ t ≠ []) := by
  by_cases hb : (pstrip l).isEmpty = true
  · rw [parse_line_eq_blank vm st l hb]
    exact ⟨fun q hq => Or.inl hq, fun t ht => Or.inl ht⟩
  · have hb' : (pstrip l).isEmpty = false := by simpa using hb
    have hline : pstrip l ≠ [] := by simpa using hb'
    cases hdet : detect_speaker (pstrip l) with
    | some sd =>
      cases hsp : st.current_speaker with
      | none =>
        rw [parse_line_eq_cue_noflush vm st l sd hb' hdet (Or.inl hsp)]
        constructor
        · exact fun q hq => Or.inl hq
        · intro t ht
          by_cases hd2 : sd.2.isEmpty = true
          · rw [if_pos hd2] at ht
            exact Or.inl ht
          · rw [if_neg hd2] at ht
            rcases List.mem_append.mp ht with h | h
            · exact Or.inl h
            · rw [List.mem_singleton.mp h]
              exact Or.inr (by simpa using hd2)
      | some sp =>
        by_cases hct : st.current_text.isEmpty = true
        · rw [parse_line_eq_cue_noflush vm st l sd hb' hdet (Or.inr hct)]
          constructor
          · exact fun q hq => Or.inl hq
          · intro t ht
            by_cases hd2 : sd.2.isEmpty = true
            · rw [if_pos hd2] at ht
              exact Or.inl ht
            · rw [if_neg hd2] at ht
              rcases List.mem_append.mp ht with h | h
              · exact Or.inl h
              · rw [List.mem_singleton.mp h]
                exact Or.inr (by simpa using hd2)
        · have hct' : st.current_text.isEmpty = false := by simpa using hct
          rw [parse_line_eq_cue_flush vm st l sd sp hb' hdet hsp hct']
          constructor
          · intro q hq
            rcases List.mem_append.mp hq with h | h
            · exact Or.inl h
            · exact Or.inr ⟨by simpa using hct, sp, List.mem_singleton.mp h⟩
          · intro t ht
            by_cases hd2 : sd.2.isEmpty = true
            · rw [if_pos hd2] at ht
              exact absurd ht (by simp)
            · rw [if_neg hd2] at ht
              rw [List.mem_singleton.mp ht]
              exact Or.inr (by simpa using hd2)
    | none =>
      cases hsp : st.current_speaker with
      | some sp =>
        rw [parse_line_eq_cont vm st l sp hb' hdet hsp]
        constructor
        · exact fun q hq => Or.inl hq
        · intro t ht
          rcases List.mem_append.mp ht with h | h
          · exact Or.inl h
          · rw [List.mem_singleton.mp h]
            exact Or.inr hline
      | none =>
        by_cases hsc : is_scene_direction (pstrip l) = true
        · rw [parse_line_eq_scene vm st l hb' hdet hsp hsc]
          exact ⟨fun q hq => Or.inl hq, fun t ht => Or.inl ht⟩
        · have hsc' : is_scene_direction (pstrip l) = false := by simpa using hsc
          rw [parse_line_eq_narr vm st l hb' hdet hsp hsc']
          constructor
          · exact fun q hq => Or.inl hq
          · intro t ht
            rcases List.mem_append.mp ht with h | h
            · exact Or.inl h
            · rw [List.mem_singleton.mp h]
              exact Or.inr hline

theorem parse_fold_text (vm : List (Line × Line)) :
    ∀ (lines : List Line) (st : ParseState),
      (∀ q ∈ st.segments, q.2 ≠ []) → (∀ t ∈ st.current_text, t ≠ []) →
      (∀ q ∈ (lines.foldl (parse_line vm) st).segments, q.2 ≠ []) ∧
      (∀ t ∈ (lines.foldl (parse_line vm) st).current_text, t ≠ [])
  | [], _, hseg, htext => ⟨hseg, htext⟩
  | l :: rest, st, hseg, htext => by
    have hc := parse_line_cases vm st l
    have hseg2 : ∀ q ∈ (parse_line vm st l).segments, q.2 ≠ [] := by
      intro q hq
      rcases hc.1 q hq with h | ⟨hct, sp, hqe⟩
      · exact hseg q h
      · rw [hqe]
        exact joinSpace_ne_nil st.current_text hct htext
    have htext2 : ∀ t ∈ (parse_line vm st l).current_text, t ≠ [] := by
      intro t ht
      rcases hc.2 t ht with h | h
      · exact htext t h
      · exact h
    exact parse_fold_text vm rest (parse_line vm st l) hseg2 htext2

/-- **C4.**  Every segment emitted by `parse_script` has non-empty text:
buffers only ever collect non-empty stripped lines or non-empty inline
dialogue, and a buffer is flushed only when non-empty, so a bare speaker
cue that captures nothing produces no segment. -/
theorem c4_segment_text_nonempty (script_text : Line) (vm : List (Line × Line))
    (q : Line × Line) (hq : q ∈ parse_script script_text vm) : q.2 ≠ [] := by
  have h := parse_fold_text vm (splitLines script_text) ⟨none, [], []⟩ (by simp) (by simp)
  simp only [parse_script] at hq
  split at hq
  · rename_i sp hsp
    split at hq
    · exact h.1 q hq
    · rename_i hct
      rcases List.mem_append.mp hq with hmem | hmem
      · exact h.1 q hmem
      · have hqe := List.mem_singleton.mp hmem
        rw [hqe]
        exact joinSpace_ne_nil _ (by simpa using hct) h.2
  · exact h.1 q hq

/-- Witness for `c4_segment_text_nonempty`, at the one-line script
`"JOHN: Hi"` whose single emitted segment is `(am_adam, Hi)`. -/
theorem c4_segment_text_nonempty_witness : str "Hi" ≠ [] :=
  c4_segment_text_nonempty (str "JOHN: Hi") [] (str "am_adam", str "Hi") (by decide)

/-- **C6 counterexample.**  The claim says a blank line bounds the
current segment, so two dialogue lines of the same speaker separated by a
blank line are never joined.  The code skips blank lines without flushing:
`"JOHN: Hello"`, a blank line, then the continuation `"World"` produce the
single segment `(am_adam, "Hello World")` with the two lines joined. -/
theorem c6_counterexample :
    parse_script (str "JOHN: Hello\n\nWorld") [] = [(str "am_adam", str "Hello World")] := by
  decide

/-- **C6 amended.**  A segment's text is the space-joined concatenation of
the contiguous lines attributed to its speaker up to the next speaker cue
or end of input; blank lines are skipped entirely and do **not** bound
segments — folding the parse over the lines equals folding it over the
non-blank lines only, and concretely a script with a blank line in the
middle of a speech parses exactly like the same script without it. -/
theorem c6_blank_lines_do_not_flush :
    (∀ (vm : List (Line × Line)) (st : ParseState) (lines : List Line),
      lines.foldl (parse_line vm) st =
        (lines.filter (fun l => !(pstrip l).isEmpty)).foldl (parse_line vm) st) ∧
    parse_script (str "SARAH: Hi\n\nthere") [] = parse_script (str "SARAH: Hi\nthere") [] := by
  constructor
  · intro vm st lines
    induction lines generalizing st with
    | nil => rfl
    | cons l rest ih =>
      by_cases h : (pstrip l).isEmpty = true
      · have hid : parse_line vm st l = st := by
          simp [parse_line, h]
        rw [List.foldl_cons, hid, List.filter_cons, if_neg (by simp [h])]
        exact ih st
      · rw [List.foldl_cons, List.filter_cons, if_pos (by simp [h]), List.foldl_cons]
        exact ih (parse_line vm st l)
  · decide

theorem get_voice_for_speaker_mem (speaker : Line) (vm : List (Line × Line)) :
    get_voice_for_speaker speaker vm ∈ vm.map Prod.snd ∨
    get_voice_for_speaker speaker vm ∈ [str "am_adam", str "af_bella", str "af_heart"] := by
  cases h1 : vm.find? (fun p => p.1 == upperL speaker) with
  | some p =>
    left
    have : get_voice_for_speaker speaker vm = p.2 := by
      simp [get_voice_for_speaker, h1]
    rw [this]
    exact List.mem_map_of_mem Prod.snd (List.mem_of_find?_eq_some h1)
  | none =>
    cases h2 : vm.find? (fun p => upperL p.1 == upperL speaker) with
    | some p =>
      left
      have : get_voice_for_speaker speaker vm = p.2 := by
        simp [get_voice_for_speaker, h1, h2]
      rw [this]
      exact List.mem_map_of_mem Prod.snd (List.mem_of_find?_eq_some h2)
    | none =>
      right
      simp only [get_voice_for_speaker, h1, h2]
      split
      · decide
      split
      · decide
      split
      · decide
      · decide

theorem parse_fold_voices (vm : List (Line × Line)) :
    ∀ (lines : List Line) (st : ParseState),
      (∀ q ∈ st.segments, q.1 ∈ vm.map Prod.snd ∨
        q.1 ∈ [str "am_adam", str "af_bella", str "af_heart"]) →
      ∀ q ∈ (lines.foldl (parse_line vm) st).segments,
        q.1 ∈ vm.map Prod.snd ∨ q.1 ∈ [str "am_adam", str "af_bella", str "af_heart"]
  | [], _, hv => hv
  | l :: rest, st, hv => by
    apply parse_fold_voices vm rest
    intro q hq
    rcases (parse_line_cases vm st l).1 q hq with h | ⟨-, sp, hqe⟩
    · exact hv q h
    · rw [hqe]
      exact get_voice_for_speaker_mem sp vm

/-- **C10.**  Every voice identifier emitted by `parse_script` is either a
value of the supplied voice map or one of the three built-in voices
`am_adam`, `af_bella`, `af_heart`; with no voice map, always one of those
three. -/
theorem c10_voices_in_range (script_text : Line) (vm : List (Line × Line))
    (q : Line × Line) (hq : q ∈ parse_script script_text vm) :
    q.1 ∈ vm.map Prod.snd ∨ q.1 ∈ [str "am_adam", str "af_bella", str "af_heart"] := by
  have h := parse_fold_voices vm (splitLines script_text) ⟨none, [], []⟩ (by simp)
  simp only [parse_script] at hq
  split at hq
  · rename_i sp hsp
    split at hq
    · exact h q hq
    · rcases List.mem_append.mp hq with hmem | hmem
      · exact h q hmem
      · rw [List.mem_singleton.mp hmem]
        exact get_voice_for_speaker_mem sp vm
  · exact h q hq

/-- Witness for `c10_voices_in_range`, at the one-line script
`"JOHN: Hi"` with no voice map. -/
theorem c10_voices_in_range_witness :
    str "am_adam" ∈ ([] : List (Line × Line)).map Prod.snd ∨
    str "am_adam" ∈ [str "am_adam", str "af_bella", str "af_heart"] :=
  c10_voices_in_range (str "JOHN: Hi") [] (str "am_adam", str "Hi") (by decide)

/-- **C9 counterexample.**  The claim says speakers with no name-based
gender signal alternate between a male-pool voice and a female-pool voice
in first-appearance order.  With speakers `ZORG` (neutral), `JOHN` (male),
`BLIP` (neutral), the code assigns `am_adam` to both neutral speakers —
the fallback alternates on the parity of all suggestions made so far, so
the second neutral speaker `BLIP` gets `am_adam`, not a female-pool
voice. -/
theorem c9_counterexample :
    suggest_voice_mappings (str "ZORG: a\nJOHN: b\nBLIP: c") =
      [(str "ZORG", str "am_adam"), (str "JOHN", str "am_adam"),
       (str "BLIP", str "am_adam")] ∧
    str "am_adam" ∉ available_voices_female := by
  constructor <;> decide

theorem dictInsert_eq_append (d : List (Line × Line)) (k v : Line)
    (h : ∀ p ∈ d, p.1 ≠ k) : dictInsert d k v = d ++ [(k, v)] := by
  have hc : ¬ (d.any (fun p => p.1 == k) = true) := by
    rw [List.any_eq_true]
    rintro ⟨p, hp, hpk⟩
    exact h p hp (by simpa using hpk)
  rw [dictInsert, if_neg hc]

theorem suggest_fold : ∀ (chars : List Line) (d : List (Line × Line)) (mi fi : ℕ),
    (∀ c ∈ chars, ∀ p ∈ d, p.1 ≠ c) → chars.Nodup →
    (chars.foldl suggest_step (d, mi, fi)).1 = d ++ suggestRule mi fi d.length chars
  | [], d, mi, fi, _, _ => by simp [suggestRule]
  | c :: rest, d, mi, fi, hdisj, hnd => by
    have hcd : ∀ p ∈ d, p.1 ≠ c := hdisj c (by simp)
    have hrest_d : ∀ x ∈ rest, ∀ p ∈ d, p.1 ≠ x := fun x hx => hdisj x (by simp [hx])
    have hc_rest : c ∉ rest := (List.nodup_cons.mp hnd).1
    have hnd2 : rest.Nodup := (List.nodup_cons.mp hnd).2
    have hdisj2 : ∀ v : Line, ∀ x ∈ rest, ∀ p ∈ d ++ [(c, v)], p.1 ≠ x := by
      intro v x hx p hp
      rcases List.mem_append.mp hp with h | h
      · exact hrest_d x hx p h
      · rw [List.mem_singleton.mp h]
        intro hcx
        exact hc_rest (by rw [show c = x from hcx]; exact hx)
    by_cases h1 : containsSub (str "narr") (firstWord (lowerL c)) = true
    · have hstep : suggest_step (d, mi, fi) c = (d ++ [(c, str "af_heart")], mi, fi) := by
        simp [suggest_step, h1, dictInsert_eq_append d c _ hcd]
      rw [List.foldl_cons, hstep,
        suggest_fold rest _ mi fi (hdisj2 _) hnd2]
      simp [suggestRule, h1, List.length_append]
    · by_cases h2 : firstWord (lowerL c) ∈ male_names
      · have hstep : suggest_step (d, mi, fi) c =
            (d ++ [(c, available_voices_male.getD (mi % 2) [])], mi + 1, fi) := by
          simp [suggest_step, h1, h2, dictInsert_eq_append d c _ hcd,
            show available_voices_male.length = 2 from rfl]
        rw [List.foldl_cons, hstep,
          suggest_fold rest _ (mi + 1) fi (hdisj2 _) hnd2]
        simp [suggestRule, h1, h2, List.length_append]
      · by_cases h3 : firstWord (lowerL c) ∈ female_names
        · have hstep : suggest_step (d, mi, fi) c =
              (d ++ [(c, available_voices_female.getD (fi % 5) [])], mi, fi + 1) := by
            simp [suggest_step, h1, h2, h3, dictInsert_eq_append d c _ hcd,
              show available_voices_female.length = 5 from rfl]
          rw [List.foldl_cons, hstep,
            suggest_fold rest _ mi (fi + 1) (hdisj2 _) hnd2]
          simp [suggestRule, h1, h2, h3, List.length_append]
        · have hstep : suggest_step (d, mi, fi) c =
              (d ++ [(c, if d.length % 2 = 0 then str "am_adam" else str "af_bella")],
                mi, fi) := by
            simp [suggest_step, h1, h2, h3, dictInsert_eq_append d c _ hcd]
          rw [List.foldl_cons, hstep,
            suggest_fold rest _ mi fi (hdisj2 _) hnd2]
          simp [suggestRule, h1, h2, h3, List.length_append]

theorem counterInc_keys_nodup (acc : List (Line × ℕ)) (k : Line)
    (h : (acc.map Prod.fst).Nodup) : ((counterInc acc k).map Prod.fst).Nodup := by
  rw [counterInc]
  by_cases hin : acc.any (fun p => p.1 == k) = true
  · rw [if_pos hin]
    have hkeys : (acc.map (fun p => if p.1 == k then (p.1, p.2 + 1) else p)).map Prod.fst
        = acc.map Prod.fst := by
      rw [List.map_map]
      apply List.map_congr_left
      intro p _
      simp only [Function.comp_apply]
      split <;> rfl
    rw [hkeys]
    exact h
  · rw [if_neg hin, List.map_append, List.nodup_append]
    refine ⟨h, List.nodup_singleton k, ?_⟩
    intro a ha hb
    simp only [List.map_cons, List.map_nil, List.mem_singleton] at hb
    subst hb
    rw [List.mem_map] at ha
    obtain ⟨p, hp, hpk⟩ := ha
    exact hin (List.any_eq_true.mpr ⟨p, hp, by simp [hpk]⟩)

theorem detect_step_keys_nodup (acc : List (Line × ℕ)) (line : Line)
    (h : (acc.map Prod.fst).Nodup) :
    ((detect_line_step acc line).map Prod.fst).Nodup := by
  cases hdet : detect_speaker line with
  | none => simpa [detect_line_step, hdet] using h
  | some sd =>
    by_cases hk : upperL sd.1 ∈ scene_keywords
    · simpa [detect_line_step, hdet, hk] using h
    · have hstep : detect_line_step acc line = counterInc acc (upperL sd.1) := by
        simp [detect_line_step, hdet, hk]
      rw [hstep]
      exact counterInc_keys_nodup acc (upperL sd.1) h

theorem detect_fold_keys_nodup : ∀ (lines : List Line) (acc : List (Line × ℕ)),
    (acc.map Prod.fst).Nodup →
    ((lines.foldl detect_line_step acc).map Prod.fst).Nodup
  | [], _, h => h
  | l :: rest, acc, h =>
    detect_fold_keys_nodup rest (detect_line_step acc l) (detect_step_keys_nodup acc l h)

theorem detect_characters_keys_nodup (script_text : Line) :
    ((detect_characters script_text).map Prod.fst).Nodup :=
  detect_fold_keys_nodup (splitLines script_text) [] (by simp)

/-- **C9 amended.**  `suggest_voice_mappings` equals `suggestRule` on the
detected characters in first-appearance order: male-named speakers
round-robin the male pool by the count of previously seen male-named
speakers (mod 2), female-named speakers round-robin the female pool
(mod 5), a speaker whose first token contains `narr` gets `af_heart`, and
every other speaker gets `am_adam` when the number of speakers assigned
before it is even and `af_bella` when it is odd. -/
theorem c9_suggest_rule (script_text : Line) :
    suggest_voice_mappings script_text =
      suggestRule 0 0 0 ((detect_characters script_text).map Prod.fst) := by
  have h := suggest_fold ((detect_characters script_text).map Prod.fst) [] 0 0
    (by intro c _ p hp; simp at hp) (detect_characters_keys_nodup script_text)
  simpa [suggest_voice_mappings] using h

end Imp
